import Mathlib

/-!
Verification of the voice spelling recognizer core of the stella-spelling-bee
repository.

The development shallowly embeds the TypeScript sources:

* `patternExtractor` (tokenisation, anchor search, fuzzy matching, letter
  extraction, confidence scoring),
* the whisper-only recording hook (`useWhisperOnlyRecording`),
* the legacy recording hook (`useVoiceRecording`, including its voice-activity
  state machine `checkVoiceActivity` and `stopRecording`),
* the orchestrating component `VoiceInputWhisperOnly` (`handleRecordingComplete`).

Strings are modelled over `Char` lists; JavaScript's ASCII-relevant string
operations (`toLowerCase`, `toUpperCase`, `trim`, regex classes `\w`, `\s`,
`[a-zA-Z]`) are modelled on ASCII, which is the range all compared literals
live in.  JavaScript numbers appearing in the sources are modelled exactly:
`Math.floor(minLength * 0.6)` equals `3 * minLength / 5` in `Nat` division
(the double rounding of `0.6` never crosses an integer boundary for string
lengths), and `matches / maxLen >= 0.7` equals `7 * maxLen ≤ 10 * matches`
for `maxLen ≠ 0` (for `maxLen = 0` the JavaScript quotient is `NaN` and the
comparison is false).
-/

/-- The separator class of `tokenize`'s `split(/[\s\-,._]+/)`. -/
def isSepChar (c : Char) : Bool :=
  c.isWhitespace || c == '-' || c == ',' || c == '.' || c == '_'

/-- Single left-to-right scan collecting maximal runs of non-separator
characters; `acc` holds the characters of the current run in reverse. -/
def splitRunsAux : List Char → List Char → List (List Char)
  | [], acc => if acc.isEmpty then [] else [acc.reverse]
  | c :: cs, acc =>
    if isSepChar c then
      if acc.isEmpty then splitRunsAux cs [] else acc.reverse :: splitRunsAux cs []
    else splitRunsAux cs (c :: acc)

/-- Maximal runs of non-separator characters, in order.  This is the result of
JavaScript `text.split(/[\s\-,._]+/).map(t => t.trim()).filter(t => t.length > 0)`
at character-list level: splitting on runs of separators and dropping empty
pieces yields exactly the maximal non-separator runs, and the `trim` is a
no-op because whitespace is part of the separator class. -/
def splitRuns (cs : List Char) : List (List Char) :=
  splitRunsAux cs []

/-- `tokenize` from `patternExtractor`. -/
def tokenize (text : String) : List String :=
  (splitRuns text.toList).map (fun run => String.mk run)

/-- JavaScript `toUpperCase`, character by character (kernel-reducible
counterpart of `String.toUpper`). -/
def toUpperString (s : String) : String :=
  String.mk (s.toList.map Char.toUpper)

/-- JavaScript `toLowerCase`, character by character (kernel-reducible
counterpart of `String.toLower`). -/
def toLowerString (s : String) : String :=
  String.mk (s.toList.map Char.toLower)

/-- JavaScript `String.prototype.trim` on a character list. -/
def jsTrim (cs : List Char) : List Char :=
  ((cs.dropWhile Char.isWhitespace).reverse.dropWhile Char.isWhitespace).reverse

/-- Characters kept by `replace(/[^\w\s]/g, '')`: word characters and whitespace. -/
def isWordOrSpaceChar (c : Char) : Bool :=
  c.isAlphanum || c == '_' || c.isWhitespace

/-- `normalizeWord`: lower-case, trim, strip punctuation. -/
def normalizeWord (word : String) : String :=
  String.mk ((jsTrim (word.toList.map Char.toLower)).filter isWordOrSpaceChar)

/-- `isSingleLetter`: the lower-cased, trimmed token matches `/^[a-zA-Z]$/`. -/
def isSingleLetter (token : String) : Bool :=
  match jsTrim (token.toList.map Char.toLower) with
  | [c] => c.isAlpha
  | _ => false

/-- The search loop shared by `findWordOccurrence` and `findWordFuzzy`: first
index `i ≥ startIndex` whose token satisfies `p` (`-1`, i.e. `none`, otherwise). -/
def findFrom (tokens : List String) (p : String → Bool) (startIndex : Nat) : Option Nat :=
  ((tokens.drop startIndex).findIdx? p).map (· + startIndex)

/-- `findWordOccurrence`. -/
def findWordOccurrence (tokens : List String) (word : String) (startIndex : Nat) : Option Nat :=
  findFrom tokens (fun t => normalizeWord t == normalizeWord word) startIndex

/-- JavaScript `s.includes(sub)`. -/
def strContains (s sub : String) : Bool :=
  (List.range (s.toList.length + 1)).any
    (fun i => (s.toList.drop i).take sub.toList.length == sub.toList)

/-- `Math.abs(a - b)` for the `Nat`-valued string lengths of the sources. -/
def natDist (a b : Nat) : Nat := max a b - min a b

/-- The match counter of `arePhoneticallySimilar`: positions below both lengths
where the characters agree. -/
def countPositionMatches (a b : List Char) : Nat :=
  (a.zip b).countP (fun p => p.1 == p.2)

/-- `arePhoneticallySimilar`.  The final floating comparison
`matches / maxLen >= 0.7` is modelled exactly (see the file comment). -/
def arePhoneticallySimilar (word1 word2 : String) : Bool :=
  if natDist word1.toList.length word2.toList.length > 3 then false
  else
    let matchCount := countPositionMatches word1.toList word2.toList
    let maxLen := max word1.toList.length word2.toList.length
    maxLen != 0 && decide (7 * maxLen ≤ 10 * matchCount)

/-- The per-token test of `findWordFuzzy`'s loop body, applied to an already
normalized token and the normalized target word.  `Math.floor(minLength * 0.6)`
is `3 * minLength / 5` (see the file comment). -/
def fuzzyTokenSame (token normalizedWord : String) : Bool :=
  if token == normalizedWord then true
  else if (strContains token normalizedWord || strContains normalizedWord token)
      && decide (natDist token.toList.length normalizedWord.toList.length ≤ 3) then true
  else
    let minLength := min token.toList.length normalizedWord.toList.length
    let matchLength := 3 * minLength / 5
    if decide (3 ≤ minLength)
        && (token.toList.take matchLength == normalizedWord.toList.take matchLength) then true
    else arePhoneticallySimilar token normalizedWord

/-- `findWordFuzzy`'s per-token test on a raw token. -/
def fuzzyTokenMatch (rawToken normalizedWord : String) : Bool :=
  fuzzyTokenSame (normalizeWord rawToken) normalizedWord

/-- `findWordFuzzy`. -/
def findWordFuzzy (tokens : List String) (word : String) (startIndex : Nat) : Option Nat :=
  findFrom tokens (fun t => fuzzyTokenMatch t (normalizeWord word)) startIndex

/-- `extractLettersBetween`: single-letter tokens strictly between the two
indices, upper-cased. -/
def extractLettersBetween (tokens : List String) (startIdx endIdx : Nat) : List String :=
  (((tokens.drop (startIdx + 1)).take (endIdx - (startIdx + 1))).filter isSingleLetter).map
    toUpperString

/-- `PatternExtractionResult.structure.firstWord` / `.secondWord` entries;
`position` is the JavaScript index with `-1` for "not found". -/
structure AnchorInfo where
  found : Bool
  position : Int
  text : String
deriving Repr, DecidableEq

/-- `PatternExtractionResult.structure.letters`. -/
structure LettersInfo where
  found : Bool
  positions : List Nat
  text : List String
deriving Repr, DecidableEq

/-- `PatternExtractionResult.structure`. -/
structure PatternStructure where
  firstWord : AnchorInfo
  letters : LettersInfo
  secondWord : AnchorInfo
deriving Repr, DecidableEq

/-- `PatternExtractionResult`. -/
structure PatternExtractionResult where
  spelling : String
  confidence : Nat
  isValid : Bool
  «structure» : PatternStructure
  issues : List String
deriving Repr, DecidableEq

/-- `calculateConfidence`. -/
def calculateConfidence (result : PatternExtractionResult) (expectedWord : String) : Nat :=
  let expectedLength := expectedWord.length
  let actualLength := result.«structure».letters.text.length
  let hasFirstWord := result.«structure».firstWord.found
  let hasLetters := result.«structure».letters.found && decide (0 < actualLength)
  let hasSecondWord := result.«structure».secondWord.found
  if hasFirstWord && hasLetters && hasSecondWord && actualLength == expectedLength then 100
  else if hasFirstWord && hasLetters && hasSecondWord then
    let letterDifference := natDist actualLength expectedLength
    if letterDifference ≤ 1 then 90
    else if letterDifference ≤ 2 then 80
    else 70
  else if hasLetters && (hasFirstWord || hasSecondWord) then 50
  else if hasLetters then 30
  else 0

/-- `validatePatternStructure`. -/
def validatePatternStructure (result : PatternExtractionResult) : Bool :=
  let hasAtLeastOneAnchor :=
    result.«structure».firstWord.found || result.«structure».secondWord.found
  let hasLetters :=
    result.«structure».letters.found && decide (0 < result.«structure».letters.text.length)
  hasAtLeastOneAnchor && hasLetters

/-- The longest-consecutive-letter-run loop of `extractSpellingPattern`'s
no-anchor branch, with its `longestSequence`/`currentSequence` accumulators. -/
def longestRunAux : List String → List String → List String → List String
  | [], longestSequence, currentSequence =>
    if currentSequence.length > longestSequence.length then currentSequence else longestSequence
  | token :: rest, longestSequence, currentSequence =>
    if isSingleLetter token then
      longestRunAux rest longestSequence (currentSequence ++ [toUpperString token])
    else if currentSequence.length > longestSequence.length then
      longestRunAux rest currentSequence []
    else
      longestRunAux rest longestSequence []

/-- The longest run of consecutive single-letter tokens (upper-cased), as
computed by the no-anchor branch of `extractSpellingPattern`. -/
def longestLetterSequence (tokens : List String) : List String :=
  longestRunAux tokens [] []

/-- The anchor record built by `extractSpellingPattern` for a search result. -/
def anchorInfoOf (tokens : List String) : Option Nat → AnchorInfo
  | some i => { found := true, position := (i : Int), text := tokens.getD i "" }
  | none => { found := false, position := -1, text := "" }

/-- First-anchor search of `extractSpellingPattern`: exact, then fuzzy.  The
`Bool` records whether the fuzzy fallback produced the hit (and hence the
issue "Used fuzzy matching for first word"). -/
def firstAnchor (tokens : List String) (word : String) : Option Nat × Bool :=
  match findWordOccurrence tokens word 0 with
  | some i => (some i, false)
  | none =>
    match findWordFuzzy tokens word 0 with
    | some i => (some i, true)
    | none => (none, false)

/-- Second-anchor search of `extractSpellingPattern`.  With a first anchor at
`f` it searches after `f` (exact, then fuzzy, recording the fuzzy issue); with
no first anchor it repeats the whole-stream searches without recording a fuzzy
issue, exactly as the source does. -/
def secondAnchor (tokens : List String) (word : String) : Option Nat → Option Nat × Bool
  | some f =>
    (match findWordOccurrence tokens word (f + 1) with
     | some i => (some i, false)
     | none =>
       match findWordFuzzy tokens word (f + 1) with
       | some i => (some i, true)
       | none => (none, false))
  | none =>
    (match findWordOccurrence tokens word 0 with
     | some i => (some i, false)
     | none => (findWordFuzzy tokens word 0, false))

/-- Letter extraction when both anchors are found in order: the single-letter
tokens strictly between them. -/
def bothAnchorLetters (tokens : List String) (f s : Nat) :
    LettersInfo × String × List String :=
  let letters := extractLettersBetween tokens f s
  if 0 < letters.length then
    ({ found := true,
       positions := (List.range letters.length).map (fun i => f + 1 + i),
       text := letters },
     String.join letters, [])
  else
    ({ found := false, positions := [], text := [] }, "", ["No letters found between words"])

/-- Letter extraction with exactly one anchor: consecutive single-letter tokens
directly after the anchor, stopping at the first non-letter. -/
def oneAnchorLetters (tokens : List String) (anchorIdx : Nat) :
    LettersInfo × String × List String :=
  let letters := ((tokens.drop (anchorIdx + 1)).takeWhile isSingleLetter).map toUpperString
  if 0 < letters.length then
    ({ found := true,
       positions := (List.range letters.length).map (fun i => anchorIdx + 1 + i),
       text := letters },
     String.join letters, ["Only one anchor found - used fallback extraction"])
  else
    ({ found := false, positions := [], text := [] }, "", ["No letters found after anchor word"])

/-- Letter extraction with no anchors: longest consecutive letter run. -/
def noAnchorLetters (tokens : List String) : LettersInfo × String × List String :=
  let letters := longestLetterSequence tokens
  if 0 < letters.length then
    ({ found := true, positions := [], text := letters },
     String.join letters, ["No anchors found - extracted longest letter sequence"])
  else
    ({ found := false, positions := [], text := [] }, "",
     ["No letter sequence found in transcription"])

/-- The letter-extraction stage of `extractSpellingPattern`, dispatching on the
two anchor results exactly as the source's `if`/`else if`/`else` chain does. -/
def lettersStage (tokens : List String) :
    Option Nat → Option Nat → LettersInfo × String × List String
  | some f, some s =>
    if f < s then bothAnchorLetters tokens f s else oneAnchorLetters tokens f
  | some f, none => oneAnchorLetters tokens f
  | none, some s => oneAnchorLetters tokens s
  | none, none => noAnchorLetters tokens

/-- `extractSpellingPattern` on an already tokenized transcript. -/
def extractCore (tokens : List String) (expectedWord : String) : PatternExtractionResult :=
  let first := firstAnchor tokens expectedWord
  let second := secondAnchor tokens expectedWord first.1
  let stage := lettersStage tokens first.1 second.1
  let issues :=
    (if first.2 then ["Used fuzzy matching for first word"] else []) ++
    (if first.1.isNone then ["First word not found in transcription"] else []) ++
    (if second.2 then ["Used fuzzy matching for second word"] else []) ++
    (if second.1.isNone then ["Second word not found in transcription"] else []) ++
    stage.2.2
  let base : PatternExtractionResult :=
    { spelling := stage.2.1,
      confidence := 0,
      isValid := false,
      «structure» :=
        { firstWord := anchorInfoOf tokens first.1,
          letters := stage.1,
          secondWord := anchorInfoOf tokens second.1 },
      issues := [] }
  { base with
    isValid := validatePatternStructure base,
    confidence := calculateConfidence base expectedWord,
    issues := issues }

/-- `extractSpellingPattern`. -/
def extractSpellingPattern (transcription expectedWord : String) : PatternExtractionResult :=
  extractCore (tokenize transcription) expectedWord

/-- The critical-issue test of `VoiceInputWhisperOnly.handleRecordingComplete`:
`issue.includes(...)` for the three critical substrings. -/
def criticalIssue (issue : String) : Bool :=
  strContains issue "No letter sequence" ||
    strContains issue "First word not found" ||
    strContains issue "Second word not found"

/-- The attempt string submitted by
`VoiceInputWhisperOnly.handleRecordingComplete` for a completed recording:
empty on error or blank transcription, otherwise the extracted spelling
(lower-cased) when the strict validation passes and the empty string when it
does not. -/
def handleRecordingComplete (transcription : String) (hasError : Bool)
    (expectedWord : String) : String :=
  if hasError || (jsTrim transcription.toList).isEmpty then ""
  else
    let result := extractSpellingPattern transcription expectedWord
    let criticalIssues := result.issues.filter criticalIssue
    if result.isValid && criticalIssues.isEmpty && (result.spelling != "") then
      toLowerString result.spelling
    else ""

/-- The spec's `RecognitionResult`: the attempt handed to grading, plus whether
the orchestrator accepted a non-empty extracted spelling. -/
structure RecognitionResult where
  spelling : String
  accepted : Bool
deriving Repr, DecidableEq

/-- The recognition outcome of one completed recording: the component always
submits; an empty submission is the "rejected / incorrect" attempt. -/
def recognitionOutcome (transcription : String) (hasError : Bool)
    (expectedWord : String) : RecognitionResult :=
  let submitted := handleRecordingComplete transcription hasError expectedWord
  { spelling := submitted, accepted := submitted != "" }

/-- Outcome of the external ASR (Whisper) call. -/
inductive ASROutcome where
  | ok (text : String)
  | failed (message : String)
deriving Repr, DecidableEq

/-- The `onstop` handler of `useWhisperOnlyRecording` (part of `startRecording`):
what it passes to `onComplete` as `(transcription, error?)`.  The handler is
total — the ASR call sits in a `try`/`catch` whose `catch` forwards
`("", error)` to the callback instead of re-throwing. -/
def whisperOnStop (audioBlobSize : Nat) (asr : ASROutcome) : String × Option String :=
  if audioBlobSize == 0 then ("", some "No audio recorded")
  else
    match asr with
    | .ok text => (text, none)
    | .failed message => ("", some message)

/-- The whisper-only pipeline end to end: recording finalisation hands
`(transcription, error?)` to `VoiceInputWhisperOnly.handleRecordingComplete`,
which submits an attempt.  Total: no exception or rejection escapes. -/
def whisperPipelineResult (audioBlobSize : Nat) (asr : ASROutcome)
    (expectedWord : String) : RecognitionResult :=
  let handed := whisperOnStop audioBlobSize asr
  recognitionOutcome handed.1 handed.2.isSome expectedWord

/-- `useVoiceRecording.stopRecording`'s settled promise: `Except.error` is a
promise rejection delivered to the hook's caller.  An inactive recorder rejects
with "No active recording"; an empty or voiceless recording resolves with `""`;
an ASR failure rejects with the ASR error (the `catch` block calls
`reject(error)`). -/
def stopRecordingOutcome (recorderActive : Bool) (audioBlobSize : Nat)
    (hadVoiceActivity : Bool) (asr : ASROutcome) : Except String String :=
  if !recorderActive then .error "No active recording"
  else if audioBlobSize == 0 || !hadVoiceActivity then .ok ""
  else
    match asr with
    | .ok text => .ok text
    | .failed message => .error message

/-- The mutable session state touched by `useWhisperOnlyRecording.startRecording`:
recording flag, accumulated chunk sizes, VAD timers/flags, error and start
time. -/
structure WhisperRecorderState where
  isRecording : Bool
  chunks : List Nat
  silenceStart : Option Nat
  voiceSustainedStart : Option Nat
  voiceSustainedConfirmed : Bool
  errorMsg : Option String
  startTime : Option Nat
deriving Repr, DecidableEq

/-- `useWhisperOnlyRecording.startRecording`: the state after a call that began
at time `now`, with `micOk` abstracting whether `getUserMedia` succeeded.  The
source performs no check of `prev.isRecording`: chunks, timers and VAD tracking
are reset unconditionally before the microphone is requested, and on success a
fresh recording session is active. -/
def startRecordingModel (prev : WhisperRecorderState) (now : Nat) (micOk : Bool) :
    WhisperRecorderState :=
  let _ := prev
  if micOk then
    { isRecording := true, chunks := [], silenceStart := none,
      voiceSustainedStart := none, voiceSustainedConfirmed := false,
      errorMsg := none, startTime := some now }
  else
    { isRecording := false, chunks := [], silenceStart := none,
      voiceSustainedStart := none, voiceSustainedConfirmed := false,
      errorMsg := some "Failed to start recording", startTime := some now }

/-- The mutable state read and written by `useVoiceRecording.checkVoiceActivity`:
whether sustained voice has been confirmed, and the start timestamps of the
candidate-voice and silence timers. -/
structure VADState where
  voiceDetected : Bool
  voiceStart : Option Nat
  silenceStart : Option Nat
deriving Repr, DecidableEq

/-- Result of one `checkVoiceActivity` tick: the updated state and whether
auto-stop was requested (the function's `return true`). -/
structure VADStepResult where
  state : VADState
  autoStop : Bool
deriving Repr, DecidableEq

/-- `SILENCE_THRESHOLD` of `useVoiceRecording` (dB). -/
def SILENCE_THRESHOLD : Int := -42

/-- `VOICE_THRESHOLD` of `useVoiceRecording` (dB). -/
def VOICE_THRESHOLD : Int := -40

/-- `SILENCE_DURATION` of `useVoiceRecording` (ms). -/
def SILENCE_DURATION : Nat := 2000

/-- `MIN_VOICE_DURATION` of `useVoiceRecording` (ms). -/
def MIN_VOICE_DURATION : Nat := 500

/-- `useVoiceRecording.checkVoiceActivity`, one tick at time `now` (ms) with
measured loudness `dB`.  Loudness is modelled as an integer number of dB: every
behaviour class of the source's comparisons against the integer thresholds
`-42`/`-40` is realised by an integer sample. -/
def checkVoiceActivity (s : VADState) (now : Nat) (dB : Int) : VADStepResult :=
  let isSilent := dB < SILENCE_THRESHOLD
  let isVoice := dB > VOICE_THRESHOLD
  if !s.voiceDetected then
    -- Phase 1: waiting for sustained voice.
    if isVoice then
      match s.voiceStart with
      | none => { state := { s with voiceStart := some now }, autoStop := false }
      | some t0 =>
        if MIN_VOICE_DURATION ≤ now - t0 then
          { state := { s with voiceDetected := true, silenceStart := none },
            autoStop := false }
        else
          { state := s, autoStop := false }
    else
      { state := { s with voiceStart := none }, autoStop := false }
  else
    -- Phase 2: voice confirmed, waiting for sustained silence.
    if isSilent then
      match s.silenceStart with
      | none => { state := { s with silenceStart := some now }, autoStop := false }
      | some t0 =>
        if SILENCE_DURATION ≤ now - t0 then
          { state := s, autoStop := true }
        else
          { state := s, autoStop := false }
    else
      { state := { s with silenceStart := none }, autoStop := false }

/-- Claim C1's confidence rubric, read literally: 100 for two anchors with the
exact letter count; 90/80/70 for two anchors with letter count off by 1/2/more;
50 for extracted letters plus exactly one anchor; 30 for extracted letters and
no anchor; 0 otherwise.  (The 100/90/80/70 buckets do not require any letters
to have been extracted — this is what the claim says, and where it diverges
from the source.) -/
def confidenceRubricClaim (result : PatternExtractionResult) (expectedWord : String) : Nat :=
  let anchorsFound : Nat :=
    (if result.«structure».firstWord.found then 1 else 0) +
    (if result.«structure».secondWord.found then 1 else 0)
  let letterCount := result.«structure».letters.text.length
  let diff := natDist letterCount expectedWord.length
  if anchorsFound == 2 && letterCount == expectedWord.length then 100
  else if anchorsFound == 2 && diff == 1 then 90
  else if anchorsFound == 2 && diff == 2 then 80
  else if anchorsFound == 2 then 70
  else if decide (0 < letterCount) && anchorsFound == 1 then 50
  else if decide (0 < letterCount) && anchorsFound == 0 then 30
  else 0

/-- The amended confidence rubric: as claim C1, but every non-zero bucket
additionally requires that letters were extracted (`letters.found` with a
positive count); with two anchors and no extracted letters the confidence is 0,
not 70–100. -/
def confidenceRubricAmended (result : PatternExtractionResult) (expectedWord : String) : Nat :=
  let anchorsFound : Nat :=
    (if result.«structure».firstWord.found then 1 else 0) +
    (if result.«structure».secondWord.found then 1 else 0)
  let letterCount := result.«structure».letters.text.length
  let lettersExtracted := result.«structure».letters.found && decide (0 < letterCount)
  let diff := natDist letterCount expectedWord.length
  if lettersExtracted && anchorsFound == 2 && letterCount == expectedWord.length then 100
  else if lettersExtracted && anchorsFound == 2 && diff == 1 then 90
  else if lettersExtracted && anchorsFound == 2 && diff == 2 then 80
  else if lettersExtracted && anchorsFound == 2 then 70
  else if lettersExtracted && anchorsFound == 1 then 50
  else if lettersExtracted && anchorsFound == 0 then 30
  else 0

/-- `calculateConfidence` reads only the `structure` field of its argument. -/
theorem calculateConfidence_congr (r r' : PatternExtractionResult) (w : String)
    (h : r.«structure» = r'.«structure») :
    calculateConfidence r w = calculateConfidence r' w := by
  unfold calculateConfidence
  rw [h]

/-- The `confidence` field of an extraction result is `calculateConfidence`
of that very result. -/
theorem extractCore_confidence (tokens : List String) (w : String) :
    (extractCore tokens w).confidence = calculateConfidence (extractCore tokens w) w := by
  unfold extractCore
  exact calculateConfidence_congr _ _ _ rfl

/-- `calculateConfidence` agrees with the amended rubric on every result. -/
theorem calculateConfidence_eq_amended (r : PatternExtractionResult) (w : String) :
    calculateConfidence r w = confidenceRubricAmended r w := by
  rcases r with ⟨sp, conf, iv, ⟨⟨ff, fpos, ftext⟩, ⟨lf, lpos, ltext⟩, ⟨sf, spos, stext⟩⟩, iss⟩
  rcases ff <;> rcases sf <;> rcases lf <;>
    by_cases hc : 0 < ltext.length <;>
      by_cases he : ltext.length = w.length <;>
        simp only [calculateConfidence, confidenceRubricAmended, natDist, Nat.max_def,
          Nat.min_def, hc, he, decide_True, decide_False, decide_eq_true_eq] <;>
        first
          | rfl
          | omega
          | (simp [hc, he] <;> first | rfl | omega | (split_ifs <;> omega))

/-- Claim C1 (counterexample): on the transcript `"cat cat"` with target
`"cat"` both anchors are found and no letters are extracted; the claim's
rubric assigns confidence 70 (letter count 0 differs from 3 by more than 2),
but the source computes confidence 0, because every non-zero bucket of
`calculateConfidence` additionally requires extracted letters. -/
theorem claim_c1_rubric_counterexample :
    (extractSpellingPattern "cat cat" "cat").«structure».firstWord.found = true ∧
    (extractSpellingPattern "cat cat" "cat").«structure».secondWord.found = true ∧
    confidenceRubricClaim (extractSpellingPattern "cat cat" "cat") "cat" = 70 ∧
    (extractSpellingPattern "cat cat" "cat").confidence = 0 := by
  decide

/-- Claim C1 (amended): for every transcript and target word the confidence of
the extraction result equals the fixed rubric of the claim restricted to
results with extracted letters — 100/90/80/70 for two anchors (by letter-count
distance 0/1/2/more), 50 for one anchor, 30 for zero anchors, each bucket
requiring at least one extracted letter, and 0 otherwise; the confidence is
never set independently of this derivation. -/
theorem claim_c1_confidence_rubric (transcription expectedWord : String) :
    (extractSpellingPattern transcription expectedWord).confidence =
      confidenceRubricAmended (extractSpellingPattern transcription expectedWord) expectedWord := by
  unfold extractSpellingPattern
  rw [extractCore_confidence, calculateConfidence_eq_amended]

/-- `Char.ofNat` at a valid code point. -/
theorem charToNat_ofNat (n : Nat) (h : n.isValidChar) : (Char.ofNat n).toNat = n := by
  simp only [Char.ofNat, h, dite_true, Char.ofNatAux, Char.toNat, UInt32.toNat]
  simp

/-- Lower-casing never turns a non-whitespace character into whitespace. -/
theorem isWhitespace_toLower (c : Char) (h : c.isWhitespace = false) :
    (Char.toLower c).isWhitespace = false := by
  unfold Char.toLower
  dsimp only
  split
  · rename_i hr
    have hv : (Char.ofNat (c.toNat + 32)).toNat = c.toNat + 32 :=
      charToNat_ofNat _ (Or.inl (by omega))
    simp only [Char.isWhitespace, Bool.or_eq_false_iff, decide_eq_false_iff_not]
    refine ⟨⟨⟨fun he => ?_, fun he => ?_⟩, fun he => ?_⟩, fun he => ?_⟩ <;>
      rw [he] at hv
    · have h32 : (' ' : Char).toNat = 32 := rfl
      omega
    · have h32 : ('\t' : Char).toNat = 9 := rfl
      omega
    · have h32 : ('\x0d' : Char).toNat = 13 := rfl
      omega
    · have h32 : ('\n' : Char).toNat = 10 := rfl
      omega
  · exact h

/-- If the lower-cased character is a letter then the upper-cased original is
an upper-case letter. -/
theorem isUpper_toUpper_of_isAlpha_toLower (c : Char) (h : (Char.toLower c).isAlpha = true) :
    (Char.toUpper c).isUpper = true := by
  unfold Char.toUpper
  dsimp only
  unfold Char.toLower at h
  dsimp only at h
  by_cases hu : 65 ≤ c.toNat ∧ c.toNat ≤ 90
  · rw [if_pos (by omega : c.toNat ≥ 65 ∧ c.toNat ≤ 90)] at h
    rw [if_neg (by omega)]
    show (decide (65 ≤ c.toNat) && decide (c.toNat ≤ 90)) = true
    simp
    omega
  · rw [if_neg (by omega : ¬(c.toNat ≥ 65 ∧ c.toNat ≤ 90))] at h
    have halpha : (65 ≤ c.toNat ∧ c.toNat ≤ 90) ∨ (97 ≤ c.toNat ∧ c.toNat ≤ 122) := by
      have hh : c.isAlpha = true := h
      simp only [Char.isAlpha, Char.isUpper, Char.isLower, Bool.or_eq_true, Bool.and_eq_true,
        decide_eq_true_eq] at hh
      exact hh
    have hl : 97 ≤ c.toNat ∧ c.toNat ≤ 122 := by tauto
    rw [if_pos (by omega : c.toNat ≥ 97 ∧ c.toNat ≤ 122)]
    have hv : (Char.ofNat (c.toNat - 32)).toNat = c.toNat - 32 :=
      charToNat_ofNat _ (Or.inl (by omega))
    show (decide ((Char.ofNat (c.toNat - 32)).toNat ≥ 65) &&
        decide ((Char.ofNat (c.toNat - 32)).toNat ≤ 90)) = true
    rw [hv]
    simp
    omega

/-- Runs produced by the token scanner contain no separator characters. -/
theorem splitRunsAux_sep_free (cs : List Char) (acc : List Char)
    (hacc : ∀ c ∈ acc, isSepChar c = false) :
    ∀ run ∈ splitRunsAux cs acc, ∀ c ∈ run, isSepChar c = false := by
  induction cs generalizing acc with
  | nil =>
    intro run hrun c hc
    unfold splitRunsAux at hrun
    split at hrun
    · simp at hrun
    · simp only [List.mem_singleton] at hrun
      subst hrun
      exact hacc c (List.mem_reverse.mp hc)
  | cons d cs ih =>
    intro run hrun c hc
    unfold splitRunsAux at hrun
    split at hrun
    · split at hrun
      · exact ih [] (by simp) run hrun c hc
      · rcases List.mem_cons.mp hrun with h1 | h1
        · subst h1; exact hacc c (List.mem_reverse.mp hc)
        · exact ih [] (by simp) run h1 c hc
    · rename_i hd
      refine ih (d :: acc) ?_ run hrun c hc
      intro e he
      rcases List.mem_cons.mp he with h1 | h1
      · subst h1; simpa using hd
      · exact hacc e h1

/-- Tokens of `tokenize` contain no separator characters (in particular no
whitespace). -/
theorem tokenize_sep_free (s : String) :
    ∀ t ∈ tokenize s, ∀ c ∈ t.toList, isSepChar c = false := by
  intro t ht c hc
  unfold tokenize splitRuns at ht
  rcases List.mem_map.mp ht with ⟨run, hrun, rfl⟩
  exact splitRunsAux_sep_free _ [] (by simp) run hrun c hc

/-- `dropWhile` leaves a list alone when no element satisfies the test. -/
theorem dropWhile_eq_self_of_all {p : Char → Bool} (l : List Char)
    (h : ∀ c ∈ l, p c = false) : l.dropWhile p = l := by
  cases l with
  | nil => rfl
  | cons c cs => simp [List.dropWhile, h c (by simp)]

/-- `jsTrim` leaves a whitespace-free character list alone. -/
theorem jsTrim_eq_self (l : List Char) (h : ∀ c ∈ l, c.isWhitespace = false) :
    jsTrim l = l := by
  unfold jsTrim
  rw [dropWhile_eq_self_of_all l h,
    dropWhile_eq_self_of_all _ (fun c hc => h c (List.mem_reverse.mp hc)),
    List.reverse_reverse]

/-- A separator-free token that passes `isSingleLetter` upper-cases to a string
of upper-case letters (in fact a single one). -/
theorem toUpperString_isUpper (tok : String)
    (hfree : ∀ c ∈ tok.toList, isSepChar c = false)
    (hsl : isSingleLetter tok = true) :
    (toUpperString tok).toList.all Char.isUpper = true := by
  unfold isSingleLetter at hsl
  have hws : ∀ c ∈ tok.toList.map Char.toLower, c.isWhitespace = false := by
    intro c hc
    rcases List.mem_map.mp hc with ⟨c0, hc0, rfl⟩
    have h0 : c0.isWhitespace = false := by
      have h1 := hfree c0 hc0
      unfold isSepChar at h1
      simp only [Bool.or_eq_false_iff] at h1
      tauto
    exact isWhitespace_toLower c0 h0
  rw [jsTrim_eq_self _ hws] at hsl
  rcases htl : tok.toList with _ | ⟨c0, rest⟩
  · rw [htl] at hsl; simp at hsl
  · rcases rest with _ | ⟨c1, rest2⟩
    · rw [htl] at hsl
      simp only [List.map_cons, List.map_nil] at hsl
      unfold toUpperString
      rw [htl]
      simp only [List.map_cons, List.map_nil]
      have : ((String.mk [Char.toUpper c0]).toList.all Char.isUpper) =
          Char.isUpper (Char.toUpper c0) := by simp
      rw [this]
      exact isUpper_toUpper_of_isAlpha_toLower c0 hsl
    · rw [htl] at hsl; simp at hsl

/-- `foldl` over string append preserves an all-characters invariant. -/
theorem foldl_append_all (p : Char → Bool) (l : List String) (acc : String)
    (hacc : acc.toList.all p = true) (h : ∀ s ∈ l, s.toList.all p = true) :
    (l.foldl (fun r s => r ++ s) acc).toList.all p = true := by
  induction l generalizing acc with
  | nil => simpa using hacc
  | cons s rest ih =>
    refine ih (acc ++ s) ?_ (fun x hx => h x (by simp [hx]))
    have hs := h s (by simp)
    have hd : (acc ++ s).toList = acc.toList ++ s.toList := String.data_append acc s
    rw [hd, List.all_append, hacc, hs]
    rfl

/-- `String.join` of all-`p` strings is all-`p`. -/
theorem join_all (p : Char → Bool) (l : List String)
    (h : ∀ s ∈ l, s.toList.all p = true) : (String.join l).toList.all p = true := by
  show ((l.foldl (fun r s => r ++ s) "").toList.all p) = true
  exact foldl_append_all p l "" (by simp) h

/-- The longest-run accumulator only ever returns strings built from
upper-cased single-letter tokens of its input. -/
theorem longestRunAux_all_upper (ts : List String) (longest current : List String)
    (hts : ∀ t ∈ ts, ∀ c ∈ t.toList, isSepChar c = false)
    (hl : ∀ x ∈ longest, x.toList.all Char.isUpper = true)
    (hc : ∀ x ∈ current, x.toList.all Char.isUpper = true) :
    ∀ x ∈ longestRunAux ts longest current, x.toList.all Char.isUpper = true := by
  induction ts generalizing longest current with
  | nil =>
    intro x hx
    unfold longestRunAux at hx
    split at hx
    · exact hc x hx
    · exact hl x hx
  | cons t rest ih =>
    intro x hx
    unfold longestRunAux at hx
    split at hx
    · rename_i hsl
      refine ih _ _ (fun u hu => hts u (by simp [hu])) hl ?_ x hx
      intro u hu
      rcases List.mem_append.mp hu with h1 | h1
      · exact hc u h1
      · simp only [List.mem_singleton] at h1
        subst h1
        exact toUpperString_isUpper t (hts t (by simp)) hsl
    · split at hx
      · exact ih _ _ (fun u hu => hts u (by simp [hu])) hc (by simp) x hx
      · exact ih _ _ (fun u hu => hts u (by simp [hu])) hl (by simp) x hx

/-- Whatever anchors were found, the spelling assembled by the letter stage
consists of upper-case letters only. -/
theorem lettersStage_spelling_upper (tokens : List String)
    (hfree : ∀ t ∈ tokens, ∀ c ∈ t.toList, isSepChar c = false)
    (fIdx sIdx : Option Nat) :
    ((lettersStage tokens fIdx sIdx).2.1).toList.all Char.isUpper = true := by
  have hboth : ∀ f s : Nat, ∀ x ∈ extractLettersBetween tokens f s,
      x.toList.all Char.isUpper = true := by
    intro f s x hx
    rcases List.mem_map.mp hx with ⟨tok, htok, rfl⟩
    rcases List.mem_filter.mp htok with ⟨hmem, hsl⟩
    exact toUpperString_isUpper tok
      (hfree tok (List.mem_of_mem_drop (List.mem_of_mem_take hmem))) hsl
  have hone : ∀ a : Nat, ∀ x ∈ ((tokens.drop (a + 1)).takeWhile isSingleLetter).map
      toUpperString, x.toList.all Char.isUpper = true := by
    intro a x hx
    rcases List.mem_map.mp hx with ⟨tok, htok, rfl⟩
    exact toUpperString_isUpper tok
      (hfree tok (List.mem_of_mem_drop ((List.takeWhile_sublist _).mem htok)))
      (List.mem_takeWhile_imp htok)
  have hnone : ∀ x ∈ longestLetterSequence tokens, x.toList.all Char.isUpper = true := by
    unfold longestLetterSequence
    exact longestRunAux_all_upper tokens [] [] hfree (by simp) (by simp)
  rcases fIdx with _ | f <;> rcases sIdx with _ | s <;>
    unfold lettersStage noAnchorLetters oneAnchorLetters bothAnchorLetters <;>
    dsimp only
  · split
    · exact join_all _ _ hnone
    · simp
  · split
    · exact join_all _ _ (hone s)
    · simp
  · split
    · exact join_all _ _ (hone f)
    · simp
  · split
    · split
      · exact join_all _ _ (hboth f s)
      · simp
    · split
      · exact join_all _ _ (hone f)
      · simp

/-- The spelling field of an extraction result is the letter stage's spelling. -/
theorem extractCore_spelling (tokens : List String) (w : String) :
    (extractCore tokens w).spelling =
      (lettersStage tokens (firstAnchor tokens w).1
        (secondAnchor tokens w (firstAnchor tokens w).1).1).2.1 := rfl

/-- Claim C2 (counterexample): `extractSpellingPattern "cat c a t cat" "cat"`
returns the spelling `"CAT"`, which is neither empty nor lower-case: the
result of `extractSpellingPattern` is not normalized to lower-case. -/
theorem claim_c2_lowercase_counterexample :
    (extractSpellingPattern "cat c a t cat" "cat").spelling = "CAT" ∧
    ¬((extractSpellingPattern "cat c a t cat" "cat").spelling = "" ∨
      ((extractSpellingPattern "cat c a t cat" "cat").spelling.toList.all
        (fun c => c.isLower)) = true) := by
  decide

/-- Claim C2 (amended): the `spelling` of every `extractSpellingPattern` result
is upper-case and alphabetic-only, or empty (every character is an upper-case
letter); it is the orchestrating component, not the extractor, that lower-cases
it before submission. -/
theorem claim_c2_spelling_upper_alphabetic (transcription expectedWord : String) :
    (extractSpellingPattern transcription expectedWord).spelling.toList.all
      Char.isUpper = true := by
  unfold extractSpellingPattern
  rw [extractCore_spelling]
  exact lettersStage_spelling_upper _ (tokenize_sep_free transcription) _ _

/-- The first-word anchor of an extraction result. -/
theorem extractCore_firstWord (tokens : List String) (w : String) :
    (extractCore tokens w).«structure».firstWord =
      anchorInfoOf tokens (firstAnchor tokens w).1 := rfl

/-- The second-word anchor of an extraction result. -/
theorem extractCore_secondWord (tokens : List String) (w : String) :
    (extractCore tokens w).«structure».secondWord =
      anchorInfoOf tokens (secondAnchor tokens w (firstAnchor tokens w).1).1 := rfl

/-- When the first anchor search failed, the second search repeats exactly the
same two whole-stream searches and therefore also fails. -/
theorem secondAnchor_none_of_first_none (tokens : List String) (w : String)
    (h : (firstAnchor tokens w).1 = none) :
    secondAnchor tokens w none = (none, false) := by
  unfold firstAnchor at h
  unfold secondAnchor
  rcases h1 : findWordOccurrence tokens w 0 with _ | i
  · rcases h2 : findWordFuzzy tokens w 0 with _ | j
    · simp [h1, h2]
    · rw [h1, h2] at h
      simp at h
  · rw [h1] at h
    simp at h

/-- Claim C10: an extraction result never reports the second anchor as found
without the first: the branch that searches for a "second" occurrence after a
missing first anchor repeats the identical searches and cannot succeed. -/
theorem claim_c10_second_implies_first (transcription expectedWord : String) :
    ((extractSpellingPattern transcription expectedWord).«structure».secondWord.found &&
      !(extractSpellingPattern transcription expectedWord).«structure».firstWord.found) =
      false := by
  unfold extractSpellingPattern
  rw [extractCore_firstWord, extractCore_secondWord]
  rcases hf : (firstAnchor (tokenize transcription) expectedWord).1 with _ | f
  · rw [secondAnchor_none_of_first_none _ _ hf]
    simp [anchorInfoOf]
  · simp [anchorInfoOf]

/-- A token stream without single-letter tokens has no letter run. -/
theorem longestRunAux_nil (ts : List String)
    (h : ∀ tok ∈ ts, isSingleLetter tok = false) :
    longestRunAux ts [] [] = [] := by
  induction ts with
  | nil => simp [longestRunAux]
  | cons t rest ih =>
    unfold longestRunAux
    rw [h t (by simp)]
    simp only [Bool.false_eq_true, if_false, List.length_nil, Nat.lt_irrefl]
    exact ih (fun tok htok => h tok (by simp [htok]))

/-- Claim C9: on an input with no single-letter tokens and no anchors (the
empty transcript included), extraction returns the completely empty result:
`spelling = ""`, `isValid = false`, `confidence = 0`, with the three
"not found" issues — and, being a total function, it never throws. -/
theorem claim_c9_empty_input (transcription expectedWord : String)
    (hletters : ∀ tok ∈ tokenize transcription, isSingleLetter tok = false)
    (hocc : findWordOccurrence (tokenize transcription) expectedWord 0 = none)
    (hfuz : findWordFuzzy (tokenize transcription) expectedWord 0 = none) :
    extractSpellingPattern transcription expectedWord =
      { spelling := "", confidence := 0, isValid := false,
        «structure» :=
          { firstWord := { found := false, position := -1, text := "" },
            letters := { found := false, positions := [], text := [] },
            secondWord := { found := false, position := -1, text := "" } },
        issues := ["First word not found in transcription",
          "Second word not found in transcription",
          "No letter sequence found in transcription"] } := by
  have hfa : firstAnchor (tokenize transcription) expectedWord = (none, false) := by
    unfold firstAnchor
    rw [hocc, hfuz]
  have hsa : secondAnchor (tokenize transcription) expectedWord none = (none, false) := by
    unfold secondAnchor
    rw [hocc, hfuz]
  have hrun : longestRunAux (tokenize transcription) [] [] = [] :=
    longestRunAux_nil _ hletters
  unfold extractSpellingPattern extractCore
  rw [hfa]
  simp only [hsa, lettersStage, noAnchorLetters, longestLetterSequence, hrun]
  simp [validatePatternStructure, calculateConfidence, anchorInfoOf]

/-- Claim C9 (witness): the empty transcript against `"cat"`. -/
theorem claim_c9_empty_input_witness :
    extractSpellingPattern "" "cat" =
      { spelling := "", confidence := 0, isValid := false,
        «structure» :=
          { firstWord := { found := false, position := -1, text := "" },
            letters := { found := false, positions := [], text := [] },
            secondWord := { found := false, position := -1, text := "" } },
        issues := ["First word not found in transcription",
          "Second word not found in transcription",
          "No letter sequence found in transcription"] } :=
  claim_c9_empty_input "" "cat" (by decide) (by decide) (by decide)

/-- Equation lemma: the longest-run scan on the empty stream. -/
theorem longestRunAux_nil_eq (longest cur : List String) :
    longestRunAux [] longest cur =
      if cur.length > longest.length then cur else longest := rfl

/-- Equation lemma: one step of the longest-run scan. -/
theorem longestRunAux_cons (t : String) (rest longest cur : List String) :
    longestRunAux (t :: rest) longest cur =
      if isSingleLetter t then longestRunAux rest longest (cur ++ [toUpperString t])
      else if cur.length > longest.length then longestRunAux rest cur []
      else longestRunAux rest longest [] := rfl

/-- Consuming a block of single-letter tokens extends the current run. -/
theorem longestRunAux_letters_append (mid rest longest cur : List String)
    (hmid : ∀ tok ∈ mid, isSingleLetter tok = true) :
    longestRunAux (mid ++ rest) longest cur =
      longestRunAux rest longest (cur ++ mid.map toUpperString) := by
  induction mid generalizing cur with
  | nil => simp
  | cons m mid ih =>
    rw [List.cons_append, longestRunAux_cons, if_pos (hmid m (by simp)),
      ih _ (fun tok htok => hmid tok (by simp [htok]))]
    simp

/-- The result of the longest-run scan is at least as long as the `longest`
accumulator. -/
theorem longestRunAux_ge_longest (ts : List String) (longest cur : List String) :
    longest.length ≤ (longestRunAux ts longest cur).length := by
  induction ts generalizing longest cur with
  | nil =>
    rw [longestRunAux_nil_eq]
    split
    · rename_i hlen
      omega
    · omega
  | cons t rest ih =>
    rw [longestRunAux_cons]
    split
    · exact ih longest (cur ++ [toUpperString t])
    · split
      · rename_i hlen
        calc longest.length ≤ cur.length := by omega
          _ ≤ (longestRunAux rest cur []).length := ih cur []
      · exact ih longest []

/-- The result of the longest-run scan is at least as long as the current
run accumulator. -/
theorem longestRunAux_ge_current (ts : List String) (longest cur : List String) :
    cur.length ≤ (longestRunAux ts longest cur).length := by
  induction ts generalizing longest cur with
  | nil =>
    rw [longestRunAux_nil_eq]
    split
    · omega
    · rename_i hlen
      omega
  | cons t rest ih =>
    rw [longestRunAux_cons]
    split
    · calc cur.length ≤ (cur ++ [toUpperString t]).length := by simp
        _ ≤ _ := ih longest (cur ++ [toUpperString t])
    · split
      · exact longestRunAux_ge_longest rest cur []
      · rename_i hlen
        calc cur.length ≤ longest.length := by omega
          _ ≤ _ := longestRunAux_ge_longest rest longest []

/-- Maximality: the longest-run scan's result is at least as long as every
contiguous all-letter segment of its input. -/
theorem longestRunAux_maximal (pre mid post : List String) (longest cur : List String)
    (hmid : ∀ tok ∈ mid, isSingleLetter tok = true) :
    mid.length ≤ (longestRunAux (pre ++ mid ++ post) longest cur).length := by
  induction pre generalizing longest cur with
  | nil =>
    rw [List.nil_append, longestRunAux_letters_append mid post longest cur hmid]
    calc mid.length ≤ (cur ++ mid.map toUpperString).length := by simp
      _ ≤ _ := longestRunAux_ge_current post longest _
  | cons p pre ih =>
    rw [show (p :: pre) ++ mid ++ post = p :: (pre ++ mid ++ post) by simp,
      longestRunAux_cons]
    split
    · exact ih _ _
    · split
      · exact ih _ _
      · exact ih _ _

/-- Soundness: the longest-run scan returns the upper-casing of some contiguous
all-letter segment of its input, provided both accumulators already have that
shape (stated relative to the original token list `T`). -/
theorem longestRunAux_shape (T : List String) :
    ∀ (ts pre curMid : List String) (longest : List String),
      T = pre ++ curMid ++ ts →
      (∀ tok ∈ curMid, isSingleLetter tok = true) →
      (∃ p m q, T = p ++ m ++ q ∧ (∀ tok ∈ m, isSingleLetter tok = true) ∧
        longest = m.map toUpperString) →
      ∃ p m q, T = p ++ m ++ q ∧ (∀ tok ∈ m, isSingleLetter tok = true) ∧
        longestRunAux ts longest (curMid.map toUpperString) = m.map toUpperString := by
  intro ts
  induction ts with
  | nil =>
    intro pre curMid longest hT hcur hgood
    rw [longestRunAux_nil_eq]
    split
    · exact ⟨pre, curMid, [], by simpa using hT, hcur, rfl⟩
    · exact hgood
  | cons t rest ih =>
    intro pre curMid longest hT hcur hgood
    rw [longestRunAux_cons]
    split
    · rename_i hsl
      have hT' : T = pre ++ (curMid ++ [t]) ++ rest := by
        rw [hT]
        simp
      have hcur' : ∀ tok ∈ curMid ++ [t], isSingleLetter tok = true := by
        intro tok htok
        rcases List.mem_append.mp htok with h1 | h1
        · exact hcur tok h1
        · simp only [List.mem_singleton] at h1
          subst h1
          exact hsl
      have := ih pre (curMid ++ [t]) longest hT' hcur' hgood
      simpa using this
    · have hT' : T = (pre ++ curMid ++ [t]) ++ ([] : List String) ++ rest := by
        rw [hT]
        simp
      split
      · refine ih (pre ++ curMid ++ [t]) [] (curMid.map toUpperString) hT' (by simp) ?_
        exact ⟨pre, curMid, t :: rest, hT, hcur, rfl⟩
      · exact ih (pre ++ curMid ++ [t]) [] longest hT' (by simp) hgood

/-- Claim C8 (counterexample): `extract("p i z z a", "pizzaria")` finds no
anchors and returns the longest letter run — but upper-cased, as `"PIZZA"`,
not `"pizza"` as the claim states; `isValid = false` and `confidence = 30`
hold as claimed. -/
theorem claim_c8_lowercase_counterexample :
    (extractSpellingPattern "p i z z a" "pizzaria").«structure».firstWord.found = false ∧
    (extractSpellingPattern "p i z z a" "pizzaria").«structure».secondWord.found = false ∧
    (extractSpellingPattern "p i z z a" "pizzaria").spelling = "PIZZA" ∧
    (extractSpellingPattern "p i z z a" "pizzaria").spelling ≠ "pizza" ∧
    (extractSpellingPattern "p i z z a" "pizzaria").isValid = false ∧
    (extractSpellingPattern "p i z z a" "pizzaria").confidence = 30 := by
  decide

/-- Claim C8 (amended): whenever neither the exact nor the fuzzy anchor search
finds the target word, extraction reports no anchors, is invalid, and returns
as spelling the upper-cased longest run of consecutive single-letter tokens:
the spelling is the upper-casing of a contiguous all-letter segment of the
token stream no shorter than any other such segment, with confidence 30 when
the run is non-empty and 0 when there is no letter at all. -/
theorem claim_c8_no_anchor_longest_run (transcription expectedWord : String)
    (hocc : findWordOccurrence (tokenize transcription) expectedWord 0 = none)
    (hfuz : findWordFuzzy (tokenize transcription) expectedWord 0 = none) :
    (extractSpellingPattern transcription expectedWord).«structure».firstWord.found = false ∧
    (extractSpellingPattern transcription expectedWord).«structure».secondWord.found = false ∧
    (extractSpellingPattern transcription expectedWord).isValid = false ∧
    ∃ pre mid post,
      tokenize transcription = pre ++ mid ++ post ∧
      (∀ tok ∈ mid, isSingleLetter tok = true) ∧
      (extractSpellingPattern transcription expectedWord).spelling =
        String.join (mid.map toUpperString) ∧
      (∀ pre' mid' post', tokenize transcription = pre' ++ mid' ++ post' →
        (∀ tok ∈ mid', isSingleLetter tok = true) → mid'.length ≤ mid.length) ∧
      (mid ≠ [] →
        (extractSpellingPattern transcription expectedWord).confidence = 30) ∧
      (mid = [] →
        (extractSpellingPattern transcription expectedWord).confidence = 0) := by
  have hfa : firstAnchor (tokenize transcription) expectedWord = (none, false) := by
    unfold firstAnchor
    rw [hocc, hfuz]
  have hsa : secondAnchor (tokenize transcription) expectedWord none = (none, false) := by
    unfold secondAnchor
    rw [hocc, hfuz]
  obtain ⟨p, m, q, hdec, hml, hrun⟩ :=
    longestRunAux_shape (tokenize transcription) (tokenize transcription) [] [] []
      (by simp) (by simp) ⟨[], [], tokenize transcription, by simp, by simp, by simp⟩
  rw [List.map_nil] at hrun
  have hlls : longestLetterSequence (tokenize transcription) = m.map toUpperString := hrun
  have hmax : ∀ pre' mid' post', tokenize transcription = pre' ++ mid' ++ post' →
      (∀ tok ∈ mid', isSingleLetter tok = true) → mid'.length ≤ m.length := by
    intro pre' mid' post' hdec' hml'
    have h1 := longestRunAux_maximal pre' mid' post' [] [] hml'
    rw [← hdec'] at h1
    have h2 : longestRunAux (tokenize transcription) [] [] = m.map toUpperString := hlls
    rw [h2, List.length_map] at h1
    exact h1
  by_cases hm : m = []
  · have hres : extractSpellingPattern transcription expectedWord =
        { spelling := "", confidence := 0, isValid := false,
          «structure» :=
            { firstWord := { found := false, position := -1, text := "" },
              letters := { found := false, positions := [], text := [] },
              secondWord := { found := false, position := -1, text := "" } },
          issues := ["First word not found in transcription",
            "Second word not found in transcription",
            "No letter sequence found in transcription"] } := by
      subst hm
      rw [List.map_nil] at hlls
      unfold extractSpellingPattern extractCore
      rw [hfa]
      simp only [hsa, lettersStage, noAnchorLetters, hlls]
      simp [validatePatternStructure, calculateConfidence, anchorInfoOf]
    refine ⟨by rw [hres], by rw [hres], by rw [hres], p, m, q, hdec, hml, ?_, hmax, ?_, ?_⟩
    · rw [hres, hm]
      rfl
    · intro hne
      exact absurd hm hne
    · intro _
      rw [hres]
  · have hlen : 0 < (m.map toUpperString).length := by
      rw [List.length_map]
      exact List.length_pos.mpr hm
    have hres : extractSpellingPattern transcription expectedWord =
        { spelling := String.join (m.map toUpperString), confidence := 30, isValid := false,
          «structure» :=
            { firstWord := { found := false, position := -1, text := "" },
              letters := { found := true, positions := [], text := m.map toUpperString },
              secondWord := { found := false, position := -1, text := "" } },
          issues := ["First word not found in transcription",
            "Second word not found in transcription",
            "No anchors found - extracted longest letter sequence"] } := by
      unfold extractSpellingPattern extractCore
      rw [hfa]
      simp only [hsa, lettersStage, noAnchorLetters, hlls]
      rw [if_pos hlen]
      simp [validatePatternStructure, calculateConfidence, anchorInfoOf, hlen,
        Nat.pos_iff_ne_zero, hm]
    refine ⟨by rw [hres], by rw [hres], by rw [hres], p, m, q, hdec, hml, by rw [hres], hmax,
      ?_, ?_⟩
    · intro _
      rw [hres]
    · intro he
      exact absurd he hm

/-- Claim C8 (witness): the claim's own example input has no anchors and an
invalid result. -/
theorem claim_c8_no_anchor_longest_run_witness :
    (extractSpellingPattern "p i z z a" "pizzaria").isValid = false :=
  (claim_c8_no_anchor_longest_run "p i z z a" "pizzaria" (by decide) (by decide)).2.2.1

/-- A successful search starting at `startIndex` returns an index at or after
it. -/
theorem findFrom_some_ge (tokens : List String) (p : String → Bool)
    (startIndex i : Nat) (h : findFrom tokens p startIndex = some i) :
    startIndex ≤ i := by
  unfold findFrom at h
  obtain ⟨j, hj, hji⟩ := Option.map_eq_some'.mp h
  omega

/-- A second anchor found after a first anchor lies strictly after it. -/
theorem secondAnchor_some_gt (tokens : List String) (w : String) (f s : Nat) (b : Bool)
    (h : secondAnchor tokens w (some f) = (some s, b)) : f < s := by
  have heq : secondAnchor tokens w (some f) =
      (match findWordOccurrence tokens w (f + 1) with
       | some i => (some i, false)
       | none =>
         match findWordFuzzy tokens w (f + 1) with
         | some i => (some i, true)
         | none => (none, false)) := rfl
  rw [heq] at h
  rcases h1 : findWordOccurrence tokens w (f + 1) with _ | i
  · rcases h2 : findWordFuzzy tokens w (f + 1) with _ | j
    · rw [h1, h2] at h
      simp at h
    · rw [h1, h2] at h
      simp only [Prod.mk.injEq, Option.some.injEq] at h
      have := findFrom_some_ge tokens _ (f + 1) j h2
      omega
  · rw [h1] at h
    simp only [Prod.mk.injEq, Option.some.injEq] at h
    have := findFrom_some_ge tokens _ (f + 1) i h1
    omega

/-- A separator-free single-letter token upper-cases to a non-empty string. -/
theorem toUpperString_ne_empty (tok : String)
    (hfree : ∀ c ∈ tok.toList, isSepChar c = false)
    (hsl : isSingleLetter tok = true) : toUpperString tok ≠ "" := by
  unfold isSingleLetter at hsl
  have hws : ∀ c ∈ tok.toList.map Char.toLower, c.isWhitespace = false := by
    intro c hc
    rcases List.mem_map.mp hc with ⟨c0, hc0, rfl⟩
    have h0 : c0.isWhitespace = false := by
      have h1 := hfree c0 hc0
      unfold isSepChar at h1
      simp only [Bool.or_eq_false_iff] at h1
      tauto
    exact isWhitespace_toLower c0 h0
  rw [jsTrim_eq_self _ hws] at hsl
  rcases htl : tok.toList with _ | ⟨c0, rest⟩
  · rw [htl] at hsl
    simp at hsl
  · intro hcon
    have : (toUpperString tok).toList = [] := by rw [hcon]; rfl
    unfold toUpperString at this
    rw [show (String.mk (tok.toList.map Char.toUpper)).toList = tok.toList.map Char.toUpper
      from rfl, htl] at this
    simp at this

/-- Appending strings only grows the character count. -/
theorem foldl_append_length_ge (l : List String) (acc : String) :
    acc.toList.length ≤ (l.foldl (fun r s => r ++ s) acc).toList.length := by
  induction l generalizing acc with
  | nil => simp
  | cons s rest ih =>
    calc acc.toList.length ≤ (acc ++ s).toList.length := by
          rw [show (acc ++ s).toList = acc.toList ++ s.toList from String.data_append acc s]
          simp
      _ ≤ _ := ih (acc ++ s)

/-- A join containing a non-empty string is non-empty. -/
theorem join_ne_empty_of_mem (x : String) (l : List String) (hx : x ≠ "") (hmem : x ∈ l) :
    String.join l ≠ "" := by
  obtain ⟨l1, l2, rfl⟩ := List.append_of_mem hmem
  intro hcon
  have hlen : (String.join (l1 ++ x :: l2)).toList.length = 0 := by rw [hcon]; rfl
  have hxne : x.toList ≠ [] := by
    intro h0
    refine hx ?_
    have h1 : String.mk x.toList = String.mk [] := congrArg String.mk h0
    exact h1
  have hx1 : 0 < x.toList.length := List.length_pos.mpr hxne
  have : (String.join (l1 ++ x :: l2)).toList.length ≥ x.toList.length := by
    show ((l1 ++ x :: l2).foldl (fun r s => r ++ s) "").toList.length ≥ _
    rw [List.foldl_append]
    calc x.toList.length ≤ ((l1.foldl (fun r s => r ++ s) "") ++ x).toList.length := by
          rw [show ((l1.foldl (fun r s => r ++ s) "") ++ x).toList =
            (l1.foldl (fun r s => r ++ s) "").toList ++ x.toList from String.data_append _ _]
          simp
      _ ≤ _ := foldl_append_length_ge l2 _
  omega

/-- `validatePatternStructure` reads only the `structure` field. -/
theorem validatePatternStructure_congr (r r' : PatternExtractionResult)
    (h : r.«structure» = r'.«structure») :
    validatePatternStructure r = validatePatternStructure r' := by
  unfold validatePatternStructure
  rw [h]

/-- The `isValid` field of an extraction result is `validatePatternStructure`
of that very result. -/
theorem extractCore_isValid (tokens : List String) (w : String) :
    (extractCore tokens w).isValid = validatePatternStructure (extractCore tokens w) := by
  unfold extractCore
  exact validatePatternStructure_congr _ _ rfl

/-- The letters record of an extraction result is the letter stage's record. -/
theorem extractCore_letters (tokens : List String) (w : String) :
    (extractCore tokens w).«structure».letters =
      (lettersStage tokens (firstAnchor tokens w).1
        (secondAnchor tokens w (firstAnchor tokens w).1).1).1 := rfl

/-- The issues of an extraction result, in source push order. -/
theorem extractCore_issues (tokens : List String) (w : String) :
    (extractCore tokens w).issues =
      (if (firstAnchor tokens w).2 then ["Used fuzzy matching for first word"] else []) ++
      (if (firstAnchor tokens w).1.isNone then ["First word not found in transcription"]
        else []) ++
      (if (secondAnchor tokens w (firstAnchor tokens w).1).2 then
        ["Used fuzzy matching for second word"] else []) ++
      (if (secondAnchor tokens w (firstAnchor tokens w).1).1.isNone then
        ["Second word not found in transcription"] else []) ++
      (lettersStage tokens (firstAnchor tokens w).1
        (secondAnchor tokens w (firstAnchor tokens w).1).1).2.2 := rfl

/-- An empty `jsTrim` means the whole list was whitespace. -/
theorem jsTrim_empty_all_ws (cs : List Char) (h : jsTrim cs = []) :
    ∀ c ∈ cs, c.isWhitespace = true := by
  unfold jsTrim at h
  have h1 : (cs.dropWhile Char.isWhitespace).reverse.dropWhile Char.isWhitespace = [] := by
    rwa [List.reverse_eq_nil_iff] at h
  have h2 : ∀ c ∈ (cs.dropWhile Char.isWhitespace).reverse, c.isWhitespace = true :=
    List.dropWhile_eq_nil_iff.mp h1
  intro c hc
  rw [← List.takeWhile_append_dropWhile (p := Char.isWhitespace) (l := cs)] at hc
  rcases List.mem_append.mp hc with h3 | h3
  · exact List.mem_takeWhile_imp h3
  · exact h2 c (List.mem_reverse.mpr h3)

/-- The scanner yields nothing on pure separators. -/
theorem splitRunsAux_all_sep_nil (cs : List Char) (h : ∀ c ∈ cs, isSepChar c = true) :
    splitRunsAux cs [] = [] := by
  induction cs with
  | nil => rfl
  | cons c rest ih =>
    unfold splitRunsAux
    rw [h c (by simp)]
    simp only [List.isEmpty_nil, if_true]
    exact ih (fun d hd => h d (by simp [hd]))

/-- A whitespace-only transcript tokenizes to nothing. -/
theorem tokenize_all_ws (s : String) (h : ∀ c ∈ s.toList, c.isWhitespace = true) :
    tokenize s = [] := by
  unfold tokenize splitRuns
  rw [splitRunsAux_all_sep_nil _ (fun c hc => by simp [isSepChar, h c hc])]
  rfl

/-- Anchor search over no tokens fails. -/
theorem firstAnchor_nil (w : String) : firstAnchor [] w = (none, false) := rfl

/-- Claim C3 (counterexample): for the transcript `"p i z z a"` with target
`"pizzaria"` the extracted spelling is non-empty and the only critical issue
strings reported are the anchor "not found" ones (not "No letter sequence
found"), yet the orchestrator submits the empty attempt: it does not accept
every non-empty spelling. -/
theorem claim_c3_accept_nonempty_counterexample :
    (extractSpellingPattern "p i z z a" "pizzaria").spelling ≠ "" ∧
    ((extractSpellingPattern "p i z z a" "pizzaria").issues.filter
      (fun issue => strContains issue "No letter sequence")) = [] ∧
    handleRecordingComplete "p i z z a" false "pizzaria" = "" := by
  decide

/-- Claim C3 (amended): the orchestrator's strict validation accepts the
extracted spelling — submitting it lower-cased — exactly when both anchors
were found and at least one letter was extracted between them; in every other
case (no anchors, one anchor, anchors without letters, blank transcription) it
submits the empty attempt. -/
theorem claim_c3_strict_acceptance (transcription expectedWord : String) :
    handleRecordingComplete transcription false expectedWord =
      (if ((extractSpellingPattern transcription expectedWord).«structure».firstWord.found &&
           (extractSpellingPattern transcription expectedWord).«structure».secondWord.found &&
           !(extractSpellingPattern transcription expectedWord).«structure».letters.text.isEmpty)
       then toLowerString (extractSpellingPattern transcription expectedWord).spelling
       else "") := by
  have hc1 : criticalIssue "Used fuzzy matching for first word" = false := by decide
  have hc2 : criticalIssue "Used fuzzy matching for second word" = false := by decide
  unfold handleRecordingComplete
  simp only [Bool.false_or]
  by_cases htr : (jsTrim transcription.toList).isEmpty = true
  · rw [if_pos htr]
    have hws : ∀ c ∈ transcription.toList, c.isWhitespace = true :=
      jsTrim_empty_all_ws _ (by simpa using htr)
    have htok : tokenize transcription = [] := tokenize_all_ws _ hws
    have hfw : (extractSpellingPattern transcription expectedWord).«structure».firstWord.found =
        false := by
      unfold extractSpellingPattern
      rw [htok, extractCore_firstWord, firstAnchor_nil]
      rfl
    rw [hfw]
    simp
  · rw [if_neg htr]
    simp only [extractSpellingPattern]
    rcases hfp : firstAnchor (tokenize transcription) expectedWord with ⟨fIdx, fFuzz⟩
    have hfid : (firstAnchor (tokenize transcription) expectedWord).1 = fIdx := by rw [hfp]
    rcases fIdx with _ | f
    · -- no first anchor: the critical issue "First word not found" forces rejection
      have hsa := secondAnchor_none_of_first_none _ _ hfid
      have hffound : (extractCore (tokenize transcription) expectedWord).«structure».firstWord.found
          = false := by
        rw [extractCore_firstWord, hfid]
        rfl
      have hmem : "First word not found in transcription" ∈
          (extractCore (tokenize transcription) expectedWord).issues.filter criticalIssue := by
        rw [extractCore_issues, hfid, hsa]
        refine List.mem_filter.mpr ⟨?_, by decide⟩
        simp
      have hcrit : ((extractCore (tokenize transcription) expectedWord).issues.filter
          criticalIssue).isEmpty = false := by
        cases h2 : ((extractCore (tokenize transcription) expectedWord).issues.filter
            criticalIssue).isEmpty
        · rfl
        · rw [List.isEmpty_iff.mp h2] at hmem
          simp at hmem
      rw [hcrit, hffound]
      simp
    · -- first anchor found
      have hffound : (extractCore (tokenize transcription) expectedWord).«structure».firstWord.found
          = true := by
        rw [extractCore_firstWord, hfid]
        rfl
      rcases hsp : secondAnchor (tokenize transcription) expectedWord (some f) with ⟨sIdx, sFuzz⟩
      rcases sIdx with _ | s
      · -- no second anchor: the critical issue "Second word not found" forces rejection
        have hsfound :
            (extractCore (tokenize transcription) expectedWord).«structure».secondWord.found
            = false := by
          rw [extractCore_secondWord, hfid, hsp]
          rfl
        have hmem : "Second word not found in transcription" ∈
            (extractCore (tokenize transcription) expectedWord).issues.filter criticalIssue := by
          rw [extractCore_issues, hfid, hsp]
          refine List.mem_filter.mpr ⟨?_, by decide⟩
          simp
        have hcrit : ((extractCore (tokenize transcription) expectedWord).issues.filter
            criticalIssue).isEmpty = false := by
          cases h2 : ((extractCore (tokenize transcription) expectedWord).issues.filter
              criticalIssue).isEmpty
          · rfl
          · rw [List.isEmpty_iff.mp h2] at hmem
            simp at hmem
        rw [hcrit, hffound, hsfound]
        simp
      · -- both anchors found
        have hfs : f < s := secondAnchor_some_gt _ _ _ _ _ hsp
        have hsfound :
            (extractCore (tokenize transcription) expectedWord).«structure».secondWord.found
            = true := by
          rw [extractCore_secondWord, hfid, hsp]
          rfl
        have hstage : lettersStage (tokenize transcription) (some f) (some s) =
            bothAnchorLetters (tokenize transcription) f s := by
          show (if f < s then bothAnchorLetters (tokenize transcription) f s
            else oneAnchorLetters (tokenize transcription) f) = _
          rw [if_pos hfs]
        by_cases hl : extractLettersBetween (tokenize transcription) f s = []
        · -- anchors but no letters between them: empty spelling, rejected
          have hboth : bothAnchorLetters (tokenize transcription) f s =
              ({ found := false, positions := [], text := [] }, "",
                ["No letters found between words"]) := by
            unfold bothAnchorLetters
            rw [hl]
            simp
          have hsp0 : (extractCore (tokenize transcription) expectedWord).spelling = "" := by
            rw [extractCore_spelling, hfid, hsp, hstage, hboth]
          have hltext :
              (extractCore (tokenize transcription) expectedWord).«structure».letters.text
              = [] := by
            rw [extractCore_letters, hfid, hsp, hstage, hboth]
          rw [hsp0, hltext, hffound, hsfound]
          simp
        · -- anchors and letters: accepted, lower-cased spelling submitted
          have hlen : 0 < (extractLettersBetween (tokenize transcription) f s).length :=
            List.length_pos.mpr hl
          have hboth : bothAnchorLetters (tokenize transcription) f s =
              ({ found := true,
                 positions := (List.range
                   (extractLettersBetween (tokenize transcription) f s).length).map
                     (fun i => f + 1 + i),
                 text := extractLettersBetween (tokenize transcription) f s },
                String.join (extractLettersBetween (tokenize transcription) f s), []) := by
            unfold bothAnchorLetters
            rw [if_pos hlen]
          have hsp1 : (extractCore (tokenize transcription) expectedWord).spelling =
              String.join (extractLettersBetween (tokenize transcription) f s) := by
            rw [extractCore_spelling, hfid, hsp, hstage, hboth]
          have hltext :
              (extractCore (tokenize transcription) expectedWord).«structure».letters
              = { found := true,
                  positions := (List.range
                    (extractLettersBetween (tokenize transcription) f s).length).map
                      (fun i => f + 1 + i),
                  text := extractLettersBetween (tokenize transcription) f s } := by
            rw [extractCore_letters, hfid, hsp, hstage, hboth]
          have hvalid : (extractCore (tokenize transcription) expectedWord).isValid = true := by
            rw [extractCore_isValid]
            unfold validatePatternStructure
            rw [hffound, hltext]
            simp [hlen]
          have hcrit : ((extractCore (tokenize transcription) expectedWord).issues.filter
              criticalIssue).isEmpty = true := by
            rw [extractCore_issues, hfid, hsp, hstage, hboth]
            rcases fFuzz <;> rcases sFuzz <;>
              simp [List.filter_append, hc1, hc2, List.filter_cons, List.filter_nil]
          have hne : String.join (extractLettersBetween (tokenize transcription) f s) ≠ "" := by
            rcases hlform : extractLettersBetween (tokenize transcription) f s with _ | ⟨x, rest⟩
            · exact absurd hlform hl
            · have hxmem : x ∈ extractLettersBetween (tokenize transcription) f s := by
                rw [hlform]
                simp
              unfold extractLettersBetween at hxmem
              rcases List.mem_map.mp hxmem with ⟨tok, htok, rfl⟩
              rcases List.mem_filter.mp htok with ⟨hmem2, hsl2⟩
              have hxne : toUpperString tok ≠ "" :=
                toUpperString_ne_empty tok
                  (tokenize_sep_free transcription tok
                    (List.mem_of_mem_drop (List.mem_of_mem_take hmem2))) hsl2
              exact join_ne_empty_of_mem _ _ hxne (by simp)
          rw [hsp1, hvalid, hcrit, hffound, hsfound, hltext]
          have hnem : (extractLettersBetween (tokenize transcription) f s).isEmpty = false := by
            rw [List.isEmpty_eq_false_iff_exists_mem]
            rcases hlform : extractLettersBetween (tokenize transcription) f s with _ | ⟨x, r2⟩
            · exact absurd hlform hl
            · exact ⟨x, by simp⟩
          simp [hne, hnem]

/-- Claim C4's fuzzy-matching rubric, read literally from the spec: two
normalized tokens are the same word iff (a) one is a substring of the other
with length difference at most 3, or (b) their first 60% of characters (the
first `⌊0.6·shorter⌋` characters, read as a positive count) match
position-for-position, or (c) at least 70% of characters match
position-for-position *over the shorter token's length*. -/
def sameWordClaim (a b : String) : Bool :=
  let la := a.toList.length
  let lb := b.toList.length
  let shorter := min la lb
  let matchLength := 3 * shorter / 5
  ((strContains a b || strContains b a) && decide (natDist la lb ≤ 3)) ||
  (decide (0 < matchLength) && (a.toList.take matchLength == b.toList.take matchLength)) ||
  (decide (0 < shorter) &&
    decide (7 * shorter ≤ 10 * countPositionMatches a.toList b.toList))

/-- The amended fuzzy rubric, matching the source: same word iff the tokens
are equal, or (a) one is a substring of the other with length difference at
most 3, or (b) the shorter has at least 3 characters and the first
`⌊0.6·shorter⌋` characters match position-for-position, or (c) the length
difference is at most 3 and at least 70% of characters match
position-for-position *relative to the longer token's length*. -/
def sameWordAmended (a b : String) : Bool :=
  let la := a.toList.length
  let lb := b.toList.length
  let shorter := min la lb
  let longer := max la lb
  let matchLength := 3 * shorter / 5
  (a == b) ||
  ((strContains a b || strContains b a) && decide (natDist la lb ≤ 3)) ||
  (decide (3 ≤ shorter) && (a.toList.take matchLength == b.toList.take matchLength)) ||
  (decide (natDist la lb ≤ 3) &&
    decide (7 * longer ≤ 10 * countPositionMatches a.toList b.toList))

/-- Claim C4 (counterexample): the already-normalized tokens `"xbcd"` and
`"abcdzzz"` match 3 of the shorter's 4 positions (75% ≥ 70%), so the claim's
rubric declares them the same word; the source divides by the longer length
(3/7 < 70%), its prefix rule fails at position 0, and no substring relation
holds, so `findWordFuzzy`'s test rejects the pair. -/
theorem claim_c4_shorter_denominator_counterexample :
    normalizeWord "xbcd" = "xbcd" ∧ normalizeWord "abcdzzz" = "abcdzzz" ∧
    sameWordClaim "xbcd" "abcdzzz" = true ∧
    fuzzyTokenSame "xbcd" "abcdzzz" = false := by
  decide

/-- Claim C4 (amended): `findWordFuzzy`'s per-token test agrees with the
amended rubric on every pair of normalized tokens. -/
theorem claim_c4_fuzzy_rubric (a b : String) :
    fuzzyTokenSame a b = sameWordAmended a b := by
  unfold fuzzyTokenSame sameWordAmended arePhoneticallySimilar
  by_cases hE : a = b
  · subst hE
    simp
  · have h1 : (a == b) = false := by simp [hE]
    have hla : a.toList.length = a.length := rfl
    have hlb : b.toList.length = b.length := rfl
    by_cases hD : natDist a.length b.length ≤ 3
    · have hD2 : ¬ 3 < natDist a.length b.length := by omega
      by_cases hS1 : strContains a b = true <;>
        by_cases hS2 : strContains b a = true <;>
          by_cases hM : 3 ≤ a.length ⊓ b.length <;>
            by_cases hP : List.take (3 * (a.length ⊓ b.length) / 5) a.data =
                List.take (3 * (a.length ⊓ b.length) / 5) b.data <;>
              by_cases hC : 7 * (a.length ⊔ b.length) ≤
                  10 * countPositionMatches a.data b.data <;>
                by_cases hZ : a.length ⊔ b.length = 0 <;>
                  first
                    | (exfalso
                       apply hE
                       have hma := Nat.le_max_left a.length b.length
                       have hmb := Nat.le_max_right a.length b.length
                       have ha : a.toList = [] := List.length_eq_zero.mp (by omega)
                       have hb : b.toList = [] := List.length_eq_zero.mp (by omega)
                       have h6 : String.mk a.toList = String.mk b.toList := by rw [ha, hb]
                       exact h6)
                    | simp [h1, hS1, hS2, hD, hD2, hM, hP, hC, hZ]
    · have hD2 : 3 < natDist a.length b.length := by omega
      by_cases hM : 3 ≤ a.length ⊓ b.length <;>
        by_cases hP : List.take (3 * (a.length ⊓ b.length) / 5) a.data =
            List.take (3 * (a.length ⊓ b.length) / 5) b.data <;>
          simp [h1, hD, hD2, hM, hP]

/-- Claim C5 (counterexample): in `useVoiceRecording.stopRecording`, an ASR
failure on a non-empty recording with detected voice is propagated as a
promise rejection carrying the error to the caller — not converted into the
empty accepted-false result. -/
theorem claim_c5_rejection_counterexample :
    stopRecordingOutcome true 1 true (ASROutcome.failed "network error") =
      Except.error "network error" ∧
    stopRecordingOutcome true 1 true (ASROutcome.failed "network error") ≠
      Except.ok "" := by
  refine ⟨rfl, ?_⟩
  intro h
  simp [stopRecordingOutcome] at h

/-- Claim C5 (amended): the whisper-only pipeline fails soft — an ASR failure
or an empty transcript yields the recognition result
`{ spelling := "", accepted := false }`, with no exception or rejection (the
pipeline is a total function into `RecognitionResult`); the legacy
`useVoiceRecording.stopRecording`, by contrast, rejects its promise on ASR
failure. -/
theorem claim_c5_whisper_fail_soft (audioBlobSize : Nat) (expectedWord : String)
    (asr : ASROutcome)
    (h : (∃ msg, asr = ASROutcome.failed msg) ∨ asr = ASROutcome.ok "") :
    whisperPipelineResult audioBlobSize asr expectedWord =
      { spelling := "", accepted := false } := by
  have hempty : ∀ t : String, handleRecordingComplete t true expectedWord = "" := by
    intro t
    unfold handleRecordingComplete
    simp
  have hblank : handleRecordingComplete "" false expectedWord = "" := rfl
  unfold whisperPipelineResult whisperOnStop recognitionOutcome
  rcases h with ⟨msg, rfl⟩ | rfl
  · by_cases hb : (audioBlobSize == 0) = true
    · rw [if_pos hb]
      simp [hempty]
    · rw [if_neg hb]
      simp [hempty]
  · by_cases hb : (audioBlobSize == 0) = true
    · rw [if_pos hb]
      simp [hempty]
    · rw [if_neg hb]
      simp [hblank]

/-- Claim C5 (witness): a failed ASR call on a non-empty whisper recording. -/
theorem claim_c5_whisper_fail_soft_witness :
    whisperPipelineResult 5 (ASROutcome.failed "network error") "cat" =
      { spelling := "", accepted := false } :=
  claim_c5_whisper_fail_soft 5 "cat" _ (Or.inl ⟨"network error", rfl⟩)

/-- Claim C6 (counterexample): calling `startRecording` while a session is
active (recording flag set, chunks accumulated, VAD mid-flight) does not fail:
it returns an active fresh session and the previous session's accumulated
chunks are discarded, not left unchanged.  No `AlreadyRecordingError` exists
in the sources. -/
theorem claim_c6_no_already_recording_counterexample :
    (startRecordingModel
      { isRecording := true, chunks := [3, 5], silenceStart := some 7,
        voiceSustainedStart := none, voiceSustainedConfirmed := true,
        errorMsg := none, startTime := some 0 } 100 true).isRecording = true ∧
    (startRecordingModel
      { isRecording := true, chunks := [3, 5], silenceStart := some 7,
        voiceSustainedStart := none, voiceSustainedConfirmed := true,
        errorMsg := none, startTime := some 0 } 100 true).chunks = [] ∧
    startRecordingModel
      { isRecording := true, chunks := [3, 5], silenceStart := some 7,
        voiceSustainedStart := none, voiceSustainedConfirmed := true,
        errorMsg := none, startTime := some 0 } 100 true ≠
      { isRecording := true, chunks := [3, 5], silenceStart := some 7,
        voiceSustainedStart := none, voiceSustainedConfirmed := true,
        errorMsg := none, startTime := some 0 } := by
  decide

/-- Claim C6 (amended): `startRecording` performs no active-session check:
called while a session is active (and with microphone access succeeding), it
simply begins a new session — recording flag set, chunks and VAD tracking
reset, error cleared — discarding the previous session's state. -/
theorem claim_c6_start_resets (prev : WhisperRecorderState) (now : Nat)
    (h : prev.isRecording = true) :
    startRecordingModel prev now true =
      { isRecording := true, chunks := [], silenceStart := none,
        voiceSustainedStart := none, voiceSustainedConfirmed := false,
        errorMsg := none, startTime := some now } := rfl

/-- Claim C6 (witness): a concrete active session. -/
theorem claim_c6_start_resets_witness :
    startRecordingModel
      { isRecording := true, chunks := [3, 5], silenceStart := some 7,
        voiceSustainedStart := none, voiceSustainedConfirmed := true,
        errorMsg := none, startTime := some 0 } 9 true =
      { isRecording := true, chunks := [], silenceStart := none,
        voiceSustainedStart := none, voiceSustainedConfirmed := false,
        errorMsg := none, startTime := some 9 } :=
  claim_c6_start_resets _ 9 rfl

/-- Claim C7 (counterexample): with speech confirmed and the silence timer
counting, a sample at exactly `SILENCE_THRESHOLD` (−42 dB) neither starts nor
continues the silence timer: the source's strict `<` comparison treats it as
"not silent" and resets the timer to null. -/
theorem claim_c7_threshold_boundary_counterexample :
    (checkVoiceActivity
      { voiceDetected := true, voiceStart := none, silenceStart := some 0 }
      100 (-42)).state.silenceStart = none ∧
    (checkVoiceActivity
      { voiceDetected := true, voiceStart := none, silenceStart := some 0 }
      100 (-42)).autoStop = false := by
  decide

/-- Claim C7 (amended): after speech is confirmed, a sample strictly below
`SILENCE_THRESHOLD` starts the silence timer (if off) or leaves it running,
auto-stopping once `SILENCE_DURATION` of continuous such samples has elapsed;
any sample at or above the threshold resets the timer to null with no
auto-stop, the state remaining speech-confirmed (no cumulative counting across
gaps). -/
theorem claim_c7_silence_timer (s : VADState) (now : Nat) (dB : Int)
    (hconf : s.voiceDetected = true) :
    (dB < SILENCE_THRESHOLD →
      (s.silenceStart = none →
        checkVoiceActivity s now dB =
          ⟨⟨true, s.voiceStart, some now⟩, false⟩) ∧
      (∀ t0, s.silenceStart = some t0 →
        (SILENCE_DURATION ≤ now - t0 →
          (checkVoiceActivity s now dB).autoStop = true) ∧
        (now - t0 < SILENCE_DURATION →
          (checkVoiceActivity s now dB).autoStop = false ∧
          (checkVoiceActivity s now dB).state.silenceStart = some t0))) ∧
    (SILENCE_THRESHOLD ≤ dB →
      (checkVoiceActivity s now dB).state.silenceStart = none ∧
      (checkVoiceActivity s now dB).autoStop = false ∧
      (checkVoiceActivity s now dB).state.voiceDetected = true) := by
  obtain ⟨vd, vs, ss⟩ := s
  simp only [VADState.mk.injEq] at hconf ⊢
  subst hconf
  unfold checkVoiceActivity
  simp only [Bool.not_true, Bool.false_eq_true, if_false]
  constructor
  · intro hsil
    rw [if_pos hsil]
    constructor
    · intro hnone
      rw [hnone]
    · intro t0 ht0
      rw [ht0]
      dsimp only
      constructor
      · intro hdur
        rw [if_pos hdur]
      · intro hdur
        rw [if_neg (by omega)]
        exact ⟨rfl, rfl⟩
  · intro hge
    rw [if_neg (by omega)]
    exact ⟨rfl, rfl, rfl⟩

/-- Claim C7 (witness): a silent sample (−43 dB) with speech confirmed and no
timer running starts the timer at the sample's time. -/
theorem claim_c7_silence_timer_witness :
    checkVoiceActivity
      { voiceDetected := true, voiceStart := none, silenceStart := none } 5 (-43) =
      ⟨⟨true, none, some 5⟩, false⟩ :=
  ((claim_c7_silence_timer
    { voiceDetected := true, voiceStart := none, silenceStart := none } 5 (-43) rfl).1
      (by decide)).1 rfl
